import Mathlib

/-!
Shallow embedding of the CSV-to-spreadsheet importer (`sheets_importer.py`,
with constants from `config.template.py`).

Cells of a loaded table are modelled by `CellVal` (a missing value, a numeric
value, or a string).  The cleaning routine `_clean_dataframe`, the per-file
rate-limit retry loop `import_csv_to_sheet`, the summary builder
`update_summary_sheet` and the orchestration in `main` are translated into
pure Lean functions; remote-call outcomes are supplied by environments.
-/

set_option maxHeartbeats 1000000

/-- A cell value of a pandas DataFrame as used by this program: a missing
value (NaN), a numeric value (dtype int64), or a string (dtype object). -/
inductive CellVal where
  | null
  | intVal (n : Int)
  | strVal (s : String)
  deriving DecidableEq

/-- `pd.isna` on a cell value. -/
def pdIsna : CellVal → Bool
  | .null => true
  | _ => false

/-- Whether a cell holds a string. -/
def cellIsStr : CellVal → Bool
  | .strVal _ => true
  | _ => false

/-- Python `str()` on a cell value. -/
def pyStr : CellVal → String
  | .null => "nan"
  | .intVal n => toString n
  | .strVal s => s

/-- Python whitespace, as stripped by `str.strip()`. -/
def pyIsSpace (c : Char) : Bool :=
  c == ' ' || c == '\t' || c == '\n' || c == '\r' || c == '\x0b' || c == '\x0c'

/-- Remove leading and trailing Python whitespace from a character list
(`str.strip()`). -/
def stripList (l : List Char) : List Char :=
  List.rdropWhile pyIsSpace (List.dropWhile pyIsSpace l)

/-- Python `str.replace(c, r)` for a single-character pattern `c`,
character by character. -/
def replaceCharList (c : Char) (r : List Char) : List Char → List Char
  | [] => []
  | a :: t => (if a = c then r else [a]) ++ replaceCharList c r t

/-- The replacement chain of `clean_value`:
`.replace('\x00', '').replace('\r', '').replace('\n', ' ')`. -/
def scrubList (l : List Char) : List Char :=
  replaceCharList '\n' [' '] (replaceCharList '\r' [] (replaceCharList '\x00' [] l))

/-- Characters surviving the NUL and carriage-return removals. -/
def scrubKeep (a : Char) : Bool :=
  !(a == '\r') && !(a == '\x00')

/-- The newline-to-space substitution of `clean_value`. -/
def nlToSpace (a : Char) : Char :=
  if a = '\n' then ' ' else a

/-- String cleaning performed by `clean_value` on a non-null stringified
value: strip, then drop NUL bytes, drop carriage returns, and replace each
newline by a space. -/
def cleanList (l : List Char) : List Char :=
  scrubList (stripList l)

/-- `clean_value` from `_clean_dataframe`: missing values become `''`;
any other value is stringified, stripped, then passed through the
replacement chain. -/
def clean_value (v : CellVal) : String :=
  if pdIsna v then "" else String.mk (cleanList (pyStr v).data)

/-- Substring search on character lists (Python `in` / plain-text
`Series.str.contains`): does `pat` start at the head? -/
def startsWithList : List Char → List Char → Bool
  | [], _ => true
  | _ :: _, [] => false
  | p :: ps, c :: cs => p == c && startsWithList ps cs

/-- Substring search on character lists: does `pat` occur anywhere? -/
def containsAtAny (pat : List Char) : List Char → Bool
  | [] => startsWithList pat []
  | c :: cs => startsWithList pat (c :: cs) || containsAtAny pat cs

/-- Does string `s` contain `pat` as a substring? -/
def strContains (s pat : String) : Bool :=
  containsAtAny pat.data s.data

/-- An in-memory table: the column labels and the data rows.  Labels are
cell values because pandas default column labels are integers. -/
structure DataFrame where
  header : List CellVal
  rows : List (List CellVal)
  deriving DecidableEq

/-- The canonical placeholder `pd.DataFrame([["NO RECORDS"]])`: default
integer column label `0` and a single one-cell data row. -/
def placeholderDf : DataFrame :=
  ⟨[CellVal.intVal 0], [[CellVal.strVal "NO RECORDS"]]⟩

/-- Does a cell hold a string containing the sentinel marker? -/
def cellContainsMarker (c : CellVal) : Bool :=
  match c with
  | .strVal s => strContains s "NO RECORDS"
  | _ => false

/-- A cell on which `clean_value` is stable under repetition: a missing
value, or a string free of NUL bytes.  (Numeric cells are excluded: the
sanitized table only ever holds strings.) -/
def cellCleanSafe : CellVal → Bool
  | .null => true
  | .strVal s => s.data.all (fun a => !(a == '\x00'))
  | .intVal _ => false

/-- `df.iloc[0].str.contains('NO RECORDS').any()` on a single data row.
When no cell of the row is a string, the row cross-section has a
non-object dtype and the `.str` accessor raises; otherwise non-string
cells yield NaN (skipped by `.any()`) and string cells are searched. -/
def rowContainsCheck (row : List CellVal) : Except String Bool :=
  if row.all (fun c => !cellIsStr c) then
    .error "Can only use .str accessor with string values"
  else
    .ok (row.any cellContainsMarker)

/-- `df.fillna('')`. -/
def fillnaEmpty (df : DataFrame) : DataFrame :=
  ⟨df.header, df.rows.map (List.map (fun c => if pdIsna c then CellVal.strVal "" else c))⟩

/-- `df.apply(lambda x: x.map(clean_value))`: every data cell becomes the
cleaned string; column labels are untouched. -/
def applyCleanValue (df : DataFrame) : DataFrame :=
  ⟨df.header, df.rows.map (List.map (fun c => CellVal.strVal (clean_value c)))⟩

/-- `_clean_dataframe`: empty tables and single-row tables mentioning the
sentinel collapse to the placeholder; otherwise every cell is normalized.
`df.empty` is true when either axis has length zero. -/
def _clean_dataframe (df : DataFrame) : Except String DataFrame :=
  if df.rows.isEmpty || df.header.isEmpty then .ok placeholderDf
  else if df.rows.length = 1 then
    match rowContainsCheck (df.rows.headD []) with
    | .error msg => .error msg
    | .ok true => .ok placeholderDf
    | .ok false => .ok (applyCleanValue (fillnaEmpty df))
  else .ok (applyCleanValue (fillnaEmpty df))

/-! Configuration constants from `config.template.py`. -/

def MAX_FILE_SIZE_MB : ℚ := 50

def MAX_RETRIES : Nat := 3

/-- `validate_file_size`: raises `ValueError` carrying the measured and the
allowed size when the file is strictly larger than the limit.  The measured
size is `os.path.getsize(file_path) / (1024 * 1024)`, exact in binary
floating point for realistic file sizes, modelled here as a rational. -/
def validate_file_size (file_size_mb max_size_mb : ℚ) : Except (ℚ × ℚ) Unit :=
  if file_size_mb > max_size_mb then
    .error (file_size_mb, max_size_mb)
  else
    .ok ()

/-- Pipeline stages of one attempt of `import_csv_to_sheet`, recorded in
execution order. -/
inductive PipeEvent where
  | load
  | clean
  | addSheet
  | writeRange
  deriving DecidableEq

/-- An exception escaping the `try` body of `import_csv_to_sheet`. -/
inductive BodyErr where
  | valueError (measured allowed : ℚ)
  | readError (msg : String)
  | cleanError (msg : String)
  | httpError (status : Nat)
  deriving DecidableEq

/-- Environment of one attempt for one file: the file's byte size, the size
limit, the outcome of `pd.read_csv` (after the encoding fallbacks), and
the outcomes of the two remote calls. -/
structure AttemptEnv where
  file_size_mb : ℚ
  max_size_mb : ℚ
  read_result : Except String DataFrame
  add_sheet : Except Nat Unit
  write_values : Except Nat Unit

/-- The `try` body of `import_csv_to_sheet`: validate the size, read the
CSV, clean it, create the sheet, write the values.  Returns the outcome
together with the stages that were reached. -/
def uploadAttempt (env : AttemptEnv) : Except BodyErr DataFrame × List PipeEvent :=
  match validate_file_size env.file_size_mb env.max_size_mb with
  | .error (m, a) => (.error (.valueError m a), [])
  | .ok _ =>
    match env.read_result with
    | .error msg => (.error (.readError msg), [.load])
    | .ok df =>
      match _clean_dataframe df with
      | .error msg => (.error (.cleanError msg), [.load, .clean])
      | .ok _cleaned =>
        match env.add_sheet with
        | .error st => (.error (.httpError st), [.load, .clean, .addSheet])
        | .ok _ =>
          match env.write_values with
          | .error st => (.error (.httpError st), [.load, .clean, .addSheet])
          | .ok _ => (.ok _cleaned, [.load, .clean, .addSheet, .writeRange])

/-- `import_csv_to_sheet` with its exception handlers: on `HttpError` with
status 429 and `retry_count < MAX_RETRIES`, sleep `(2 ** retry_count) * 30`
seconds and retry the whole body; on any other error return `False`.
The result pairs the returned boolean with the list of backoff sleeps. -/
def import_csv_to_sheet (maxRetries : Nat) (envs : Nat → AttemptEnv)
    (retry_count : Nat) : Bool × List Nat :=
  match (uploadAttempt (envs retry_count)).1 with
  | .ok _ => (true, [])
  | .error (BodyErr.httpError status) =>
    if h : status = 429 ∧ retry_count < maxRetries then
      let r := import_csv_to_sheet maxRetries envs (retry_count + 1)
      (r.1, (2 ^ retry_count * 30) :: r.2)
    else (false, [])
  | .error _ => (false, [])
  termination_by maxRetries - retry_count
  decreasing_by simp_wf; omega

/-- `os.path.splitext(name)[0]` for a bare file name: the name without its
final extension; leading dots do not start an extension. -/
def splitextBase (s : String) : String :=
  let cs := s.data
  let lead := cs.takeWhile (· == '.')
  let rest := cs.drop lead.length
  if rest.any (· == '.') then
    String.mk (lead ++ ((rest.reverse.dropWhile (· != '.')).drop 1).reverse)
  else s

/-- The summary formula written for the row at 1-based index `n`:
`=COUNTA(INDIRECT(A<n>&"!A:A")) - 1`. -/
def formulaFor (n : Nat) : String :=
  "=COUNTA(INDIRECT(A" ++ toString n ++ "&\"!A:A\")) - 1"

/-- The summary-building loop of `update_summary_sheet`: one row per
processed file that is among the successful imports, carrying the derived
tab name and a formula referencing the running row index. -/
def buildSummary (csv_files successful_imports : List String) : List (List String) :=
  csv_files.foldl
    (fun summary_data csv_file =>
      if csv_file ∈ successful_imports then
        summary_data ++ [[splitextBase csv_file, formulaFor (summary_data.length + 1)]]
      else summary_data)
    []

/-- Structural companion of the `buildSummary` fold: the remaining files,
together with the number of rows already accumulated. -/
def buildSummaryGo (successful_imports : List String) :
    List String → Nat → List (List String)
  | [], _ => []
  | f :: fs, n =>
    if f ∈ successful_imports then
      [splitextBase f, formulaFor (n + 1)] :: buildSummaryGo successful_imports fs (n + 1)
    else buildSummaryGo successful_imports fs n

/-- `update_summary_sheet`: builds the summary rows and performs the write
to the first tab only when at least one row was built.  `some rows` is a
performed write of `rows`; `none` means no write happened. -/
def update_summary_sheet (csv_files successful_imports : List String) :
    Option (List (List String)) :=
  let summary_data := buildSummary csv_files successful_imports
  if summary_data.isEmpty then none else some summary_data

/-- The per-file loop of `main`: each file is imported in order and its
boolean outcome recorded; no outcome aborts the loop. -/
def orchestrate (maxRetries : Nat) (fileEnvs : List (Nat → AttemptEnv)) : List Bool :=
  fileEnvs.map (fun envs => (import_csv_to_sheet maxRetries envs 0).1)

/-- Result of one run of `main`. -/
inductive RunResult where
  | noFiles
  | createFailed
  | completed (successful_imports : List String) (summary : Option (List (List String)))
  deriving DecidableEq

/-- `main`: list the CSV files, create the document (outcome supplied by
`createResult`), import each file in order collecting the successful ones,
then write the summary.  The second component is the list of files that
entered per-file processing. -/
def mainRun (csv_files : List String) (createResult : Option String)
    (maxRetries : Nat) (fileEnvs : String → Nat → AttemptEnv) :
    RunResult × List String :=
  if csv_files.isEmpty then (.noFiles, [])
  else
    match createResult with
    | none => (.createFailed, [])
    | some _ =>
      let successful_imports :=
        csv_files.filter (fun f => (import_csv_to_sheet maxRetries (fileEnvs f) 0).1)
      (.completed successful_imports (update_summary_sheet csv_files successful_imports),
        csv_files)

/-! Spec-side definitions, used to compare the code's cell normalization
with the specification's wording. -/

/-- Collapse newline runs, tracking whether the previous character was a
newline. -/
def collapseNlAux : Bool → List Char → List Char
  | _, [] => []
  | inRun, c :: t =>
    if c = '\n' then (if inRun then [] else [' ']) ++ collapseNlAux true t
    else c :: collapseNlAux false t

/-- Collapse every run of newline characters into a single space. -/
def collapseNlRuns (l : List Char) : List Char :=
  collapseNlAux false l

/-- Cell normalization as the specification words it: null becomes the
empty string; otherwise stringify, trim surrounding whitespace, remove NUL
bytes, remove carriage returns, and collapse every run of embedded
newlines to a single space. -/
def specCleanRuns (v : CellVal) : String :=
  if pdIsna v then ""
  else
    String.mk (collapseNlRuns
      (((stripList (pyStr v).data).filter (fun a => !(a == '\x00'))).filter
        (fun a => !(a == '\r'))))

/-- Cell normalization as the code actually behaves, in spec wording
amended only on the newline clause: null becomes the empty string;
otherwise stringify, trim surrounding whitespace, remove NUL bytes, remove
carriage returns, and replace each embedded newline by one space. -/
def specCleanEach (v : CellVal) : String :=
  if pdIsna v then ""
  else
    String.mk
      ((((stripList (pyStr v).data).filter (fun a => !(a == '\x00'))).filter
        (fun a => !(a == '\r'))).map (fun a => if a = '\n' then ' ' else a))

/-! Helper lemmas: the character-level cleaning pipeline. -/

lemma replaceCharList_nil (c : Char) (l : List Char) :
    replaceCharList c [] l = l.filter (fun a => !(a == c)) := by
  induction l with
  | nil => rfl
  | cons a t ih =>
    by_cases h : a = c <;> simp [replaceCharList, List.filter_cons, ih, h]

lemma replaceCharList_single (c x : Char) (l : List Char) :
    replaceCharList c [x] l = l.map (fun a => if a = c then x else a) := by
  induction l with
  | nil => rfl
  | cons a t ih =>
    by_cases h : a = c <;> simp [replaceCharList, ih, h]

lemma scrubList_eq (l : List Char) :
    scrubList l = (l.filter scrubKeep).map nlToSpace := by
  unfold scrubList
  rw [replaceCharList_nil, replaceCharList_nil, replaceCharList_single,
    List.filter_filter]
  rfl

lemma mem_scrubList {a : Char} {l : List Char} (h : a ∈ scrubList l) :
    a = ' ' ∨ (a ∈ l ∧ a ≠ '\x00' ∧ a ≠ '\r' ∧ a ≠ '\n') := by
  rw [scrubList_eq] at h
  obtain ⟨b, hb, hba⟩ := List.mem_map.mp h
  obtain ⟨hbl, hbk⟩ := List.mem_filter.mp hb
  have hbk' : b ≠ '\r' ∧ b ≠ '\x00' := by
    simpa [scrubKeep] using hbk
  by_cases hbn : b = '\n'
  · left
    simp [nlToSpace, hbn] at hba
    exact hba.symm
  · right
    have hfb : nlToSpace b = b := by simp [nlToSpace, hbn]
    rw [hfb] at hba
    subst hba
    exact ⟨hbl, hbk'.2, hbk'.1, hbn⟩

lemma scrubList_no_specials {a : Char} {l : List Char} (h : a ∈ scrubList l) :
    a ≠ '\x00' ∧ a ≠ '\r' ∧ a ≠ '\n' := by
  rcases mem_scrubList h with h1 | h2
  · subst h1
    refine ⟨by decide, by decide, by decide⟩
  · exact h2.2

lemma scrubList_fix {l : List Char}
    (h : ∀ a ∈ l, a ≠ '\x00' ∧ a ≠ '\r' ∧ a ≠ '\n') : scrubList l = l := by
  rw [scrubList_eq]
  have hf : l.filter scrubKeep = l := by
    refine List.filter_eq_self.mpr (fun a ha => ?_)
    have := h a ha
    simp [scrubKeep, this.1, this.2.1]
  rw [hf]
  have hmap : ∀ a ∈ l, nlToSpace a = a := fun a ha => by
    simp [nlToSpace, (h a ha).2.2]
  calc l.map nlToSpace = l.map id := List.map_congr_left hmap
  _ = l := List.map_id l

lemma scrubList_reverse (l : List Char) :
    scrubList l.reverse = (scrubList l).reverse := by
  rw [scrubList_eq, scrubList_eq, List.filter_reverse, List.map_reverse]

lemma scrubList_cons_keep {a : Char} (t : List Char)
    (ha1 : pyIsSpace a = false) (ha2 : a ≠ '\x00') :
    scrubList (a :: t) = a :: scrubList t := by
  have har : a ≠ '\r' := by
    intro h
    subst h
    simp [pyIsSpace] at ha1
  have han : a ≠ '\n' := by
    intro h
    subst h
    simp [pyIsSpace] at ha1
  rw [scrubList_eq, scrubList_eq, List.filter_cons]
  have hk : scrubKeep a = true := by simp [scrubKeep, har, ha2]
  simp only [hk, if_pos, List.map_cons]
  simp [nlToSpace, han]

lemma stripList_sublist (l : List Char) : List.Sublist (stripList l) l :=
  ((List.rdropWhile_prefix pyIsSpace (l.dropWhile pyIsSpace)).sublist).trans
    ((List.dropWhile_suffix pyIsSpace).sublist)

lemma stripList_subset {a : Char} {l : List Char} (h : a ∈ stripList l) : a ∈ l :=
  (stripList_sublist l).subset h

lemma stripList_head? {l : List Char} {c : Char}
    (h : (stripList l).head? = some c) : pyIsSpace c = false := by
  obtain ⟨t, ht⟩ := List.rdropWhile_prefix pyIsSpace (l.dropWhile pyIsSpace)
  have hh : (l.dropWhile pyIsSpace).head? = some c := by
    rw [← ht, List.head?_append]
    unfold stripList at h
    rw [h]
    rfl
  have h2 := List.head?_dropWhile_not pyIsSpace l
  rw [hh] at h2
  exact h2

lemma stripList_getLast? {l : List Char} {c : Char}
    (h : (stripList l).getLast? = some c) : pyIsSpace c = false := by
  have hne : stripList l ≠ [] := by
    intro h0
    rw [h0] at h
    simp at h
  have hlast := List.rdropWhile_last_not pyIsSpace (l.dropWhile pyIsSpace) hne
  have : (stripList l).getLast? = some ((stripList l).getLast hne) :=
    List.getLast?_eq_getLast _ hne
  rw [h] at this
  have hc : c = (stripList l).getLast hne := by
    injection this
  rw [hc]
  simpa using hlast

lemma stripList_fix {l : List Char}
    (h1 : ∀ c, l.head? = some c → pyIsSpace c = false)
    (h2 : ∀ c, l.getLast? = some c → pyIsSpace c = false) :
    stripList l = l := by
  have hd : l.dropWhile pyIsSpace = l := by
    cases l with
    | nil => rfl
    | cons a t =>
      have := h1 a rfl
      simp [List.dropWhile_cons, this]
  unfold stripList
  rw [hd]
  rw [List.rdropWhile_eq_self_iff]
  intro hl
  have := h2 (l.getLast hl) (List.getLast?_eq_getLast _ hl)
  simp [this]

lemma cleanList_nil : cleanList [] = [] := rfl

lemma cleanList_fix {l : List Char} (h : ∀ a ∈ l, a ≠ '\x00') :
    cleanList (cleanList l) = cleanList l := by
  have tnul : ∀ a ∈ stripList l, a ≠ '\x00' := fun a ha => h a (stripList_subset ha)
  have hscrub2 : scrubList (scrubList (stripList l)) = scrubList (stripList l) :=
    scrubList_fix (fun a ha => scrubList_no_specials ha)
  have hstrip : stripList (scrubList (stripList l)) = scrubList (stripList l) := by
    apply stripList_fix
    · intro c hc
      cases ht : stripList l with
      | nil =>
        rw [ht] at hc
        simp [scrubList, replaceCharList] at hc
      | cons a t' =>
        have ha1 : pyIsSpace a = false := stripList_head? (by rw [ht]; rfl)
        have ha2 : a ≠ '\x00' := tnul a (by rw [ht]; exact List.mem_cons_self a t')
        rw [ht, scrubList_cons_keep t' ha1 ha2] at hc
        simp at hc
        rw [← hc]
        exact ha1
    · intro c hc
      rw [← List.head?_reverse, ← scrubList_reverse] at hc
      cases hrev : (stripList l).reverse with
      | nil =>
        rw [hrev] at hc
        simp [scrubList, replaceCharList] at hc
      | cons a t' =>
        have haLast : (stripList l).getLast? = some a := by
          rw [← List.head?_reverse, hrev]
          rfl
        have ha1 : pyIsSpace a = false := stripList_getLast? haLast
        have ha2 : a ≠ '\x00' := tnul a (by
          have : a ∈ (stripList l).reverse := by
            rw [hrev]
            exact List.mem_cons_self a t'
          exact List.mem_reverse.mp this)
        rw [hrev, scrubList_cons_keep t' ha1 ha2] at hc
        simp at hc
        rw [← hc]
        exact ha1
  show scrubList (stripList (scrubList (stripList l))) = scrubList (stripList l)
  rw [hstrip, hscrub2]

lemma clean_value_strVal (s : String) :
    clean_value (CellVal.strVal s) = String.mk (cleanList s.data) := rfl

lemma clean_value_fix {v : CellVal} (hv : cellCleanSafe v = true) :
    clean_value (CellVal.strVal (clean_value v)) = clean_value v := by
  cases v with
  | null => rfl
  | intVal n => simp [cellCleanSafe] at hv
  | strVal s =>
    have hs : ∀ a ∈ s.data, a ≠ '\x00' := by
      intro a ha
      have := List.all_eq_true.mp hv a ha
      simpa using this
    rw [clean_value_strVal, clean_value_strVal]
    exact congrArg String.mk (cleanList_fix hs)

lemma cleanList_eq_each (l : List Char) :
    cleanList l =
      (((stripList l).filter (fun a => !(a == '\x00'))).filter
        (fun a => !(a == '\r'))).map (fun a => if a = '\n' then ' ' else a) := by
  unfold cleanList scrubList
  rw [replaceCharList_nil, replaceCharList_nil, replaceCharList_single]

lemma clean_value_eq_specCleanEach (v : CellVal) :
    clean_value v = specCleanEach v := by
  unfold clean_value specCleanEach
  by_cases h : pdIsna v = true
  · simp [h]
  · simp only [Bool.not_eq_true] at h
    simp [h, cleanList_eq_each]

lemma clean_value_fillna (c : CellVal) :
    clean_value (if pdIsna c then CellVal.strVal "" else c) = clean_value c := by
  cases c <;> rfl

lemma cellCleanSafe_fillna (c : CellVal) (h : cellCleanSafe c = true) :
    cellCleanSafe (if pdIsna c then CellVal.strVal "" else c) = true := by
  cases c with
  | null => rfl
  | intVal n => simp [cellCleanSafe] at h
  | strVal s => exact h

lemma cleanFillCell_idem (c : CellVal) (h : cellCleanSafe c = true) :
    CellVal.strVal (clean_value
      (if pdIsna (CellVal.strVal (clean_value (if pdIsna c then CellVal.strVal "" else c)))
        then CellVal.strVal ""
        else CellVal.strVal (clean_value (if pdIsna c then CellVal.strVal "" else c)))) =
    CellVal.strVal (clean_value (if pdIsna c then CellVal.strVal "" else c)) := by
  have hfill : cellCleanSafe (if pdIsna c then CellVal.strVal "" else c) = true :=
    cellCleanSafe_fillna c h
  show CellVal.strVal (clean_value (CellVal.strVal
    (clean_value (if pdIsna c then CellVal.strVal "" else c)))) = _
  rw [clean_value_fix hfill]

lemma applyClean_fix (df : DataFrame)
    (h : ∀ r ∈ df.rows, ∀ c ∈ r, cellCleanSafe c = true) :
    applyCleanValue (fillnaEmpty (applyCleanValue (fillnaEmpty df))) =
      applyCleanValue (fillnaEmpty df) := by
  unfold applyCleanValue fillnaEmpty
  congr 1
  simp only [List.map_map]
  apply List.map_congr_left
  intro r hr
  simp only [Function.comp, List.map_map]
  apply List.map_congr_left
  intro c hc
  exact cleanFillCell_idem c (h r hr c hc)

lemma not_all_nonstr {row : List CellVal} (h : row.any cellIsStr = true) :
    row.all (fun c => !cellIsStr c) = false := by
  obtain ⟨c, hc, hcs⟩ := List.any_eq_true.mp h
  by_contra hall
  simp only [Bool.not_eq_false] at hall
  have := List.all_eq_true.mp hall c hc
  simp [hcs] at this

lemma not_all_nonstr2 {row : List CellVal} (h : row.any cellIsStr = true) :
    ¬(row.all (fun c => !cellIsStr c) = true) := by
  rw [not_all_nonstr h]
  simp

lemma clean_placeholder : _clean_dataframe placeholderDf = .ok placeholderDf := rfl

lemma clean_df_multi (df : DataFrame) (h2 : df.rows.length ≠ 1)
    (hr : df.rows.isEmpty = false) (hh : df.header.isEmpty = false) :
    _clean_dataframe df = .ok (applyCleanValue (fillnaEmpty df)) := by
  unfold _clean_dataframe
  rw [hr, hh]
  simp [h2]

lemma clean_df_single (df : DataFrame) (h1 : df.rows.length = 1)
    (hh : df.header.isEmpty = false)
    (hcheck : rowContainsCheck (df.rows.headD []) = .ok false) :
    _clean_dataframe df = .ok (applyCleanValue (fillnaEmpty df)) := by
  have hr : df.rows.isEmpty = false := by
    cases hl : df.rows with
    | nil => rw [hl] at h1; simp at h1
    | cons _ _ => simp
  unfold _clean_dataframe
  rw [if_neg (by simp [hr, hh]), if_pos h1, hcheck]

lemma clean_df_single_marker (df : DataFrame) (h1 : df.rows.length = 1)
    (hcheck : rowContainsCheck (df.rows.headD []) = .ok true) :
    _clean_dataframe df = .ok placeholderDf := by
  unfold _clean_dataframe
  by_cases hempty : (df.rows.isEmpty || df.header.isEmpty) = true
  · rw [if_pos hempty]
  · rw [if_neg hempty, if_pos h1, hcheck]

/-! Helper lemmas: the retry loop and the orchestrator. -/

lemma import_sustained (maxR : Nat) (envs : Nat → AttemptEnv)
    (h : ∀ n, (uploadAttempt (envs n)).1 = .error (.httpError 429)) :
    ∀ k rc, maxR - rc = k →
      import_csv_to_sheet maxR envs rc =
        (false, (List.range k).map (fun i => 2 ^ (rc + i) * 30)) := by
  intro k
  induction k with
  | zero =>
    intro rc hrc
    unfold import_csv_to_sheet
    rw [h rc]
    dsimp only
    have hno : ¬(429 = 429 ∧ rc < maxR) := by omega
    rw [dif_neg hno]
    simp
  | succ k ih =>
    intro rc hrc
    unfold import_csv_to_sheet
    rw [h rc]
    dsimp only
    have hyes : 429 = 429 ∧ rc < maxR := ⟨rfl, by omega⟩
    rw [dif_pos hyes]
    rw [ih (rc + 1) (by omega)]
    rw [List.range_succ_eq_map, List.map_cons, List.map_map]
    refine congrArg (fun l => (false, (2 ^ (rc + 0) * 30) :: l)) ?_
    apply List.map_congr_left
    intro i _
    show 2 ^ (rc + 1 + i) * 30 = 2 ^ (rc + (i + 1)) * 30
    rw [show rc + 1 + i = rc + (i + 1) by omega]

lemma import_len_le (maxR : Nat) (envs : Nat → AttemptEnv) :
    ∀ k rc, maxR - rc = k →
      (import_csv_to_sheet maxR envs rc).2.length ≤ k := by
  intro k
  induction k with
  | zero =>
    intro rc hrc
    unfold import_csv_to_sheet
    cases hA : (uploadAttempt (envs rc)).1 with
    | ok v => simp
    | error e =>
      cases e with
      | httpError st =>
        dsimp only
        have hno : ¬(st = 429 ∧ rc < maxR) := by omega
        rw [dif_neg hno]
        simp
      | valueError m a => simp
      | readError m => simp
      | cleanError m => simp
  | succ k ih =>
    intro rc hrc
    unfold import_csv_to_sheet
    cases hA : (uploadAttempt (envs rc)).1 with
    | ok v => simp
    | error e =>
      cases e with
      | httpError st =>
        dsimp only
        by_cases hc : st = 429 ∧ rc < maxR
        · rw [dif_pos hc]
          have := ih (rc + 1) (by omega)
          simpa using this
        · rw [dif_neg hc]
          simp
      | valueError m a => simp
      | readError m => simp
      | cleanError m => simp

lemma import_first_error (maxR : Nat) (envs : Nat → AttemptEnv) (e : BodyErr)
    (he : (uploadAttempt (envs 0)).1 = .error e) (hne : e ≠ .httpError 429) :
    import_csv_to_sheet maxR envs 0 = (false, []) := by
  unfold import_csv_to_sheet
  rw [he]
  cases e with
  | httpError st =>
    dsimp only
    have hst : st ≠ 429 := by
      intro h429
      exact hne (by rw [h429])
    rw [dif_neg (by omega)]
  | valueError m a => rfl
  | readError m => rfl
  | cleanError m => rfl

lemma orchestrate_length (maxR : Nat) (l : List (Nat → AttemptEnv)) :
    (orchestrate maxR l).length = l.length :=
  List.length_map l _

lemma orchestrate_getD (maxR : Nat) (dflt : Nat → AttemptEnv) :
    ∀ (l : List (Nat → AttemptEnv)) (i : Nat), i < l.length →
      (orchestrate maxR l).getD i true =
        (import_csv_to_sheet maxR (l.getD i dflt) 0).1 := by
  intro l
  induction l with
  | nil =>
    intro i hi
    simp at hi
  | cons e t ih =>
    intro i hi
    cases i with
    | zero => rfl
    | succ j =>
      have hj : j < t.length := by simpa using hi
      have := ih j hj
      simpa [orchestrate, List.getD_cons_succ] using this

/-! Helper lemmas: the summary builder. -/

lemma buildSummary_foldl_go (succ : List String) :
    ∀ (files : List String) (acc : List (List String)),
      files.foldl
        (fun summary_data csv_file =>
          if csv_file ∈ succ then
            summary_data ++
              [[splitextBase csv_file, formulaFor (summary_data.length + 1)]]
          else summary_data) acc =
      acc ++ buildSummaryGo succ files acc.length := by
  intro files
  induction files with
  | nil =>
    intro acc
    simp [buildSummaryGo]
  | cons f fs ih =>
    intro acc
    by_cases hf : f ∈ succ
    · simp only [List.foldl_cons, if_pos hf]
      rw [ih]
      simp [buildSummaryGo, hf, List.append_assoc]
    · simp only [List.foldl_cons, if_neg hf]
      rw [ih]
      simp [buildSummaryGo, hf]

lemma buildSummary_eq_go (files succ : List String) :
    buildSummary files succ = buildSummaryGo succ files 0 := by
  unfold buildSummary
  rw [buildSummary_foldl_go]
  simp

lemma buildSummaryGo_length (succ : List String) :
    ∀ (files : List String) (n : Nat),
      (buildSummaryGo succ files n).length =
        (files.filter (fun f => decide (f ∈ succ))).length := by
  intro files
  induction files with
  | nil => intro n; rfl
  | cons f fs ih =>
    intro n
    by_cases hf : f ∈ succ
    · simp [buildSummaryGo, hf, List.filter_cons, ih]
    · simp [buildSummaryGo, hf, List.filter_cons, ih]

lemma buildSummaryGo_heads (succ : List String) :
    ∀ (files : List String) (n : Nat),
      (buildSummaryGo succ files n).map (fun r => r.headD "") =
        (files.filter (fun f => decide (f ∈ succ))).map splitextBase := by
  intro files
  induction files with
  | nil => intro n; rfl
  | cons f fs ih =>
    intro n
    have ih2 : ∀ m, List.map (fun r => r.head?.getD "") (buildSummaryGo succ fs m) =
        List.map splitextBase (List.filter (fun g => decide (g ∈ succ)) fs) := by
      intro m
      simpa [List.headD_eq_head?_getD] using ih m
    by_cases hf : f ∈ succ
    · simp [buildSummaryGo, hf, List.filter_cons, ih2]
    · simp [buildSummaryGo, hf, List.filter_cons, ih2]

lemma filter_mem_eq (csv_files : List String) (p : String → Bool) :
    csv_files.filter (fun f => decide (f ∈ csv_files.filter p)) =
      csv_files.filter p := by
  apply List.filter_congr
  intro f hf
  by_cases hp : p f = true
  · simp [List.mem_filter, hf, hp]
  · simp [List.mem_filter, hp]

/-! Claim theorems. -/

/-- Claim C3: every table with zero data rows, and every table whose single
data row has the single cell "NO RECORDS", sanitizes to the one-column,
one-row placeholder table whose cell is "NO RECORDS". -/
theorem claim3_no_records (df : DataFrame)
    (h : df.rows = [] ∨ df.rows = [[CellVal.strVal "NO RECORDS"]]) :
    _clean_dataframe df = .ok placeholderDf ∧
    placeholderDf.header.length = 1 ∧
    placeholderDf.rows = [[CellVal.strVal "NO RECORDS"]] := by
  refine ⟨?_, rfl, rfl⟩
  rcases h with h | h
  · unfold _clean_dataframe
    rw [if_pos (by simp [h])]
  · apply clean_df_single_marker
    · rw [h]
      rfl
    · rw [h]
      rfl

/-- Claim C3 witness: the empty table sanitizes to the placeholder. -/
theorem claim3_witness :
    _clean_dataframe ⟨[CellVal.strVal "col"], []⟩ = .ok placeholderDf :=
  (claim3_no_records ⟨[CellVal.strVal "col"], []⟩ (Or.inl rfl)).1

/-- Claim C10: a single-data-row table any of whose cells contains
"NO RECORDS" as a substring — multiple columns, other cells and
surrounding text included — is discarded wholesale, header and all, in
favour of the placeholder. -/
theorem claim10_marker_substring (df : DataFrame) (s : String)
    (h1 : df.rows.length = 1) (h2 : CellVal.strVal s ∈ df.rows.headD [])
    (h3 : strContains s "NO RECORDS" = true) :
    _clean_dataframe df = .ok placeholderDf := by
  apply clean_df_single_marker df h1
  unfold rowContainsCheck
  have hstr : (df.rows.headD []).any cellIsStr = true :=
    List.any_eq_true.mpr ⟨CellVal.strVal s, h2, rfl⟩
  have hany : (df.rows.headD []).any cellContainsMarker = true :=
    List.any_eq_true.mpr ⟨CellVal.strVal s, h2, by simpa [cellContainsMarker] using h3⟩
  rw [if_neg (not_all_nonstr2 hstr), hany]

/-- Claim C10 witness: a two-column single row with one cell embedding the
marker in surrounding text collapses to the placeholder. -/
theorem claim10_witness :
    _clean_dataframe ⟨[CellVal.strVal "h1", CellVal.strVal "h2"],
      [[CellVal.strVal "x", CellVal.strVal "see NO RECORDS here"]]⟩ =
      .ok placeholderDf :=
  claim10_marker_substring _ "see NO RECORDS here" rfl (by simp) rfl

/-- Claim C5 counterexample: a table with one all-numeric data row makes
the sanitizer raise (the `.str` accessor on a non-string row), so the
sanitizer is not total. -/
theorem claim5_counterexample :
    _clean_dataframe ⟨[CellVal.strVal "a"], [[CellVal.intVal 5]]⟩ =
      .error "Can only use .str accessor with string values" := rfl

/-- Claim C5 amended: the sanitizer returns a cleaned table without error
on every table except those with exactly one data row none of whose cells
is string-valued; on those the single row's `.str` accessor raises. -/
theorem claim5_total_amended (df : DataFrame)
    (h : df.rows.isEmpty = true ∨ df.header.isEmpty = true ∨
      df.rows.length ≠ 1 ∨ (df.rows.headD []).any cellIsStr = true) :
    ∃ out, _clean_dataframe df = .ok out := by
  by_cases hempty : (df.rows.isEmpty || df.header.isEmpty) = true
  · exact ⟨placeholderDf, by unfold _clean_dataframe; rw [if_pos hempty]⟩
  · simp only [Bool.or_eq_true, not_or, Bool.not_eq_true] at hempty
    by_cases h1 : df.rows.length = 1
    · have hstr : (df.rows.headD []).any cellIsStr = true := by
        rcases h with h | h | h | h
        · exact absurd h (by simp [hempty.1])
        · exact absurd h (by simp [hempty.2])
        · exact absurd h1 h
        · exact h
      by_cases hmark : (df.rows.headD []).any cellContainsMarker = true
      · refine ⟨placeholderDf, clean_df_single_marker df h1 ?_⟩
        unfold rowContainsCheck
        rw [if_neg (not_all_nonstr2 hstr), hmark]
      · refine ⟨applyCleanValue (fillnaEmpty df), clean_df_single df h1 hempty.2 ?_⟩
        unfold rowContainsCheck
        simp only [Bool.not_eq_true] at hmark
        rw [if_neg (not_all_nonstr2 hstr), hmark]
    · exact ⟨applyCleanValue (fillnaEmpty df), clean_df_multi df h1 hempty.1 hempty.2⟩

/-- Claim C5 witness: a single-row table whose cell is the string "5" is
cleaned without error. -/
theorem claim5_witness :
    ∃ out, _clean_dataframe ⟨[CellVal.strVal "a"], [[CellVal.strVal "5"]]⟩ = .ok out :=
  claim5_total_amended _ (Or.inr (Or.inr (Or.inr (by decide))))

/-- Claim C6 counterexample: the code replaces each newline with one
space, so a run of two embedded newlines becomes two spaces rather than
the single space the claim requires. -/
theorem claim6_counterexample :
    clean_value (CellVal.strVal "a\n\nb") = "a  b" ∧
    specCleanRuns (CellVal.strVal "a\n\nb") = "a b" ∧
    clean_value (CellVal.strVal "a\n\nb") ≠ specCleanRuns (CellVal.strVal "a\n\nb") :=
  ⟨rfl, rfl, by decide⟩

/-- Claim C6 amended: cell normalization maps missing values to the empty
string and every other value to its string form with surrounding
whitespace trimmed, NUL bytes removed, carriage returns removed, and each
embedded newline replaced by one space; the sanitizer applies exactly this
map to every cell of a non-degenerate (multi-row, non-empty-header)
table. -/
theorem claim6_normalization_amended (v : CellVal) (df : DataFrame) :
    clean_value v = specCleanEach v ∧
    (2 ≤ df.rows.length → df.header.isEmpty = false →
      _clean_dataframe df =
        .ok ⟨df.header,
          df.rows.map (List.map (fun c => CellVal.strVal (specCleanEach c)))⟩) := by
  refine ⟨clean_value_eq_specCleanEach v, fun h2 hh => ?_⟩
  have hr : df.rows.isEmpty = false := by
    cases hl : df.rows with
    | nil => rw [hl] at h2; simp at h2
    | cons _ _ => simp
  rw [clean_df_multi df (by omega) hr hh]
  refine congrArg Except.ok ?_
  unfold applyCleanValue fillnaEmpty
  refine congrArg (DataFrame.mk df.header) ?_
  simp only [List.map_map]
  apply List.map_congr_left
  intro r hr'
  simp only [Function.comp, List.map_map]
  apply List.map_congr_left
  intro c hc
  show CellVal.strVal (clean_value (if pdIsna c = true then CellVal.strVal "" else c)) =
    CellVal.strVal (specCleanEach c)
  rw [clean_value_fillna, clean_value_eq_specCleanEach]

/-- Claim C6 witness: the amended normalization evaluated on a concrete
cell and a concrete two-row table. -/
theorem claim6_witness :
    clean_value (CellVal.strVal " a\rb\nc ") = specCleanEach (CellVal.strVal " a\rb\nc ") ∧
    _clean_dataframe ⟨[CellVal.strVal "h"], [[CellVal.strVal " x "], [CellVal.null]]⟩ =
      .ok ⟨[CellVal.strVal "h"],
        [[CellVal.strVal (specCleanEach (CellVal.strVal " x "))],
          [CellVal.strVal (specCleanEach CellVal.null)]]⟩ := by
  have h := claim6_normalization_amended (CellVal.strVal " a\rb\nc ")
    ⟨[CellVal.strVal "h"], [[CellVal.strVal " x "], [CellVal.null]]⟩
  exact ⟨h.1, h.2 (by decide) rfl⟩

/-- Claim C4 counterexample: sanitizing can newly create the sentinel
marker (a newline becomes the space of "NO RECORDS"), so sanitizing the
sanitizer's output collapses it to the placeholder — a different table. -/
theorem claim4_counterexample :
    _clean_dataframe ⟨[CellVal.strVal "a"], [[CellVal.strVal "NO\nRECORDS"]]⟩ =
      .ok ⟨[CellVal.strVal "a"], [[CellVal.strVal "NO RECORDS"]]⟩ ∧
    _clean_dataframe ⟨[CellVal.strVal "a"], [[CellVal.strVal "NO RECORDS"]]⟩ =
      .ok placeholderDf ∧
    (⟨[CellVal.strVal "a"], [[CellVal.strVal "NO RECORDS"]]⟩ : DataFrame) ≠
      placeholderDf :=
  ⟨rfl, rfl, by decide⟩

/-- Claim C4 amended: the sanitizer is idempotent on every table whose
cells are missing values or NUL-free strings, provided that when the table
has exactly one data row, that row holds at least one string and mentions
"NO RECORDS" in no cell either before or after cleaning; the placeholder
itself is also a fixed point. -/
theorem claim4_idempotent_amended (df : DataFrame)
    (hcells : ∀ r ∈ df.rows, ∀ c ∈ r, cellCleanSafe c = true)
    (hone : df.rows.length = 1 →
      (df.rows.headD []).any cellIsStr = true ∧
      (df.rows.headD []).any cellContainsMarker = false ∧
      (df.rows.headD []).any
        (fun c => strContains (clean_value c) "NO RECORDS") = false) :
    _clean_dataframe placeholderDf = .ok placeholderDf ∧
    ∀ out, _clean_dataframe df = .ok out → _clean_dataframe out = .ok out := by
  refine ⟨clean_placeholder, ?_⟩
  intro out hout
  by_cases hempty : (df.rows.isEmpty || df.header.isEmpty) = true
  · unfold _clean_dataframe at hout
    rw [if_pos hempty] at hout
    injection hout with hph
    rw [← hph]
    exact clean_placeholder
  · simp only [Bool.or_eq_true, not_or, Bool.not_eq_true] at hempty
    by_cases h1 : df.rows.length = 1
    · obtain ⟨hstr, hmark, hmark2⟩ := hone h1
      have hcheck : rowContainsCheck (df.rows.headD []) = .ok false := by
        unfold rowContainsCheck
        rw [if_neg (not_all_nonstr2 hstr), hmark]
      rw [clean_df_single df h1 hempty.2 hcheck] at hout
      injection hout with hph
      subst hph
      obtain ⟨r, hr⟩ := List.length_eq_one.mp h1
      have hrne : r ≠ [] := by
        intro h0
        rw [hr, h0] at hstr
        simp at hstr
      have hrowsout : (applyCleanValue (fillnaEmpty df)).rows =
          [(r.map (fun c => if pdIsna c then CellVal.strVal "" else c)).map
            (fun c => CellVal.strVal (clean_value c))] := by
        unfold applyCleanValue fillnaEmpty
        simp [hr]
      have hlen1 : (applyCleanValue (fillnaEmpty df)).rows.length = 1 := by
        rw [hrowsout]
        rfl
      have hheadout : (applyCleanValue (fillnaEmpty df)).rows.headD [] =
          (r.map (fun c => if pdIsna c then CellVal.strVal "" else c)).map
            (fun c => CellVal.strVal (clean_value c)) := by
        rw [hrowsout]
        rfl
      have hrhead : df.rows.headD [] = r := by
        rw [hr]
        rfl
      have hcheck2 : rowContainsCheck ((applyCleanValue (fillnaEmpty df)).rows.headD []) =
          .ok false := by
        unfold rowContainsCheck
        have hstr2 : (((r.map (fun c => if pdIsna c then CellVal.strVal "" else c)).map
            (fun c => CellVal.strVal (clean_value c))).any cellIsStr) = true := by
          cases r with
          | nil => exact absurd rfl hrne
          | cons c0 r' => simp [cellIsStr]
        rw [hheadout, if_neg (not_all_nonstr2 hstr2)]
        have hmarkmap : ((r.map (fun c => if pdIsna c then CellVal.strVal "" else c)).map
            (fun c => CellVal.strVal (clean_value c))).any cellContainsMarker =
            r.any (fun c => strContains (clean_value c) "NO RECORDS") := by
          simp only [List.any_map]
          congr 1
          funext c
          show cellContainsMarker (CellVal.strVal
            (clean_value (if pdIsna c = true then CellVal.strVal "" else c))) = _
          rw [clean_value_fillna]
          rfl
        rw [hmarkmap]
        rw [hrhead] at hmark2
        rw [hmark2]
      have hres := clean_df_single (applyCleanValue (fillnaEmpty df)) hlen1
        (show (applyCleanValue (fillnaEmpty df)).header.isEmpty = false from hempty.2)
        hcheck2
      rw [hres, applyClean_fix df hcells]
    · rw [clean_df_multi df h1 hempty.1 hempty.2] at hout
      injection hout with hph
      subst hph
      have hlenout : (applyCleanValue (fillnaEmpty df)).rows.length = df.rows.length := by
        unfold applyCleanValue fillnaEmpty
        simp
      have hroout : (applyCleanValue (fillnaEmpty df)).rows.isEmpty = false := by
        unfold applyCleanValue fillnaEmpty
        simpa using hempty.1
      rw [clean_df_multi (applyCleanValue (fillnaEmpty df)) (by rw [hlenout]; exact h1)
        hroout (show (applyCleanValue (fillnaEmpty df)).header.isEmpty = false from hempty.2)]
      rw [applyClean_fix df hcells]

/-- Claim C4 witness: the amended idempotence applied to a concrete NUL-free
two-row table. -/
theorem claim4_witness :
    _clean_dataframe ⟨[CellVal.strVal "a"], [[CellVal.strVal "x"], [CellVal.strVal ""]]⟩ =
      .ok ⟨[CellVal.strVal "a"], [[CellVal.strVal "x"], [CellVal.strVal ""]]⟩ :=
  (claim4_idempotent_amended
    ⟨[CellVal.strVal "a"], [[CellVal.strVal " x "], [CellVal.null]]⟩
    (by decide) (by decide)).2
    ⟨[CellVal.strVal "a"], [[CellVal.strVal "x"], [CellVal.strVal ""]]⟩ rfl

/-- Claim C1: under a sustained rate-limit condition (every attempt ends in
HTTP 429) the uploader sleeps exactly `30 * 2^n` seconds before retry `n`
(`n` from 0), performs exactly the bounded number of retries, and then
returns failure; moreover no run ever records more than `maxRetries`
backoff sleeps. -/
theorem claim1_rate_limit_retry (maxRetries : Nat) (envs : Nat → AttemptEnv)
    (h : ∀ n, (uploadAttempt (envs n)).1 = .error (.httpError 429)) :
    import_csv_to_sheet maxRetries envs 0 =
      (false, (List.range maxRetries).map (fun n => 2 ^ n * 30)) ∧
    ∀ envs2 : Nat → AttemptEnv,
      (import_csv_to_sheet maxRetries envs2 0).2.length ≤ maxRetries := by
  constructor
  · have hs := import_sustained maxRetries envs h maxRetries 0 (by omega)
    rw [hs]
    refine congrArg (fun l => ((false : Bool), l)) ?_
    apply List.map_congr_left
    intro i _
    rw [Nat.zero_add]
  · intro envs2
    have hb := import_len_le maxRetries envs2 maxRetries 0 (by omega)
    exact hb

/-- Claim C1 witness: with the default bound `MAX_RETRIES = 3` and every
attempt rate limited, the run fails after backoff sleeps of 30, 60 and
120 seconds — three retries, then failure. -/
theorem claim1_witness :
    import_csv_to_sheet MAX_RETRIES
      (fun _ => ⟨1, 50, .ok placeholderDf, .error 429, .ok ()⟩) 0 =
      (false, [30, 60, 120]) := by
  have h := (claim1_rate_limit_retry MAX_RETRIES
    (fun _ => ⟨1, 50, .ok placeholderDf, .error 429, .ok ()⟩) (fun n => rfl)).1
  rw [h]
  rfl

/-- Claim C2: a per-file error that is not HTTP 429 — another remote-service
status, or an exception raised during validation, parsing or upload —
yields a failed outcome with zero retries and zero backoff sleeps, while
the per-file loop still records one outcome per file, each computed by its
own import. -/
theorem claim2_non_rate_limit_failure (maxRetries : Nat)
    (fileEnvs : List (Nat → AttemptEnv)) (dflt : Nat → AttemptEnv)
    (i : Nat) (hi : i < fileEnvs.length) (e : BodyErr)
    (he : (uploadAttempt ((fileEnvs.getD i dflt) 0)).1 = .error e)
    (hne : e ≠ .httpError 429) :
    import_csv_to_sheet maxRetries (fileEnvs.getD i dflt) 0 = (false, []) ∧
    (orchestrate maxRetries fileEnvs).length = fileEnvs.length ∧
    (orchestrate maxRetries fileEnvs).getD i true = false ∧
    ∀ j, j < fileEnvs.length →
      (orchestrate maxRetries fileEnvs).getD j true =
        (import_csv_to_sheet maxRetries (fileEnvs.getD j dflt) 0).1 := by
  have hfail := import_first_error maxRetries (fileEnvs.getD i dflt) e he hne
  refine ⟨hfail, orchestrate_length _ _, ?_,
    fun j hj => orchestrate_getD maxRetries dflt fileEnvs j hj⟩
  rw [orchestrate_getD maxRetries dflt fileEnvs i hi, hfail]

/-- Claim C2 witness: one file whose CSV parse raises fails with no backoff
sleep, and the loop records its (false) outcome. -/
theorem claim2_witness :
    import_csv_to_sheet MAX_RETRIES
      ([fun _ => (⟨1, 50, .error "parse failure", .ok (), .ok ()⟩ : AttemptEnv)].getD 0
        (fun _ => ⟨1, 50, .ok placeholderDf, .ok (), .ok ()⟩)) 0 = (false, []) ∧
    (orchestrate MAX_RETRIES
      [fun _ => ⟨1, 50, .error "parse failure", .ok (), .ok ()⟩]).getD 0 true = false := by
  have h := claim2_non_rate_limit_failure MAX_RETRIES
    [fun _ => ⟨1, 50, .error "parse failure", .ok (), .ok ()⟩]
    (fun _ => ⟨1, 50, .ok placeholderDf, .ok (), .ok ()⟩) 0 (by simp)
    (.readError "parse failure") rfl (by simp)
  exact ⟨h.1, h.2.2.1⟩

/-- Claim C7: a file strictly over the size limit fails validation with an
error carrying the measured and allowed sizes, the loader never runs for
it (no pipeline stage is reached) and the import fails with no retry; a
file within the limit passes validation with no effect. -/
theorem claim7_size_validation (env : AttemptEnv) (maxRetries : Nat)
    (envs : Nat → AttemptEnv) (h0 : envs 0 = env) :
    (env.file_size_mb > env.max_size_mb →
      validate_file_size env.file_size_mb env.max_size_mb =
        .error (env.file_size_mb, env.max_size_mb) ∧
      (uploadAttempt env).2 = [] ∧
      PipeEvent.load ∉ (uploadAttempt env).2 ∧
      import_csv_to_sheet maxRetries envs 0 = (false, [])) ∧
    (env.file_size_mb ≤ env.max_size_mb →
      validate_file_size env.file_size_mb env.max_size_mb = .ok ()) := by
  constructor
  · intro hgt
    have hval : validate_file_size env.file_size_mb env.max_size_mb =
        .error (env.file_size_mb, env.max_size_mb) := by
      unfold validate_file_size
      rw [if_pos hgt]
    have hatt : uploadAttempt env =
        (.error (.valueError env.file_size_mb env.max_size_mb), []) := by
      unfold uploadAttempt
      rw [hval]
    refine ⟨hval, by rw [hatt], by rw [hatt]; simp, ?_⟩
    apply import_first_error maxRetries envs
      (.valueError env.file_size_mb env.max_size_mb)
    · rw [h0, hatt]
    · simp
  · intro hle
    unfold validate_file_size
    rw [if_neg (not_lt.mpr hle)]

/-- Claim C7 witness: a 60 MB file against the 50 MB limit reaches no
pipeline stage, and a 1 MB file passes validation. -/
theorem claim7_witness :
    (uploadAttempt ⟨60, 50, .ok placeholderDf, .ok (), .ok ()⟩).2 = [] ∧
    validate_file_size 1 50 = .ok () := by
  refine ⟨((claim7_size_validation ⟨60, 50, .ok placeholderDf, .ok (), .ok ()⟩
    MAX_RETRIES (fun _ => ⟨60, 50, .ok placeholderDf, .ok (), .ok ()⟩) rfl).1
      (by decide)).2.1, ?_⟩
  exact (claim7_size_validation ⟨1, 50, .ok placeholderDf, .ok (), .ok ()⟩
    MAX_RETRIES (fun _ => ⟨1, 50, .ok placeholderDf, .ok (), .ok ()⟩) rfl).2 (by decide)

/-- Claim C8: the summary has exactly one row per succeeded file, in input
order (the row heads are the succeeded files' derived tab names), zero
rows for failed files, and no write is performed when nothing succeeded;
when something succeeded the built rows are written. -/
theorem claim8_summary_rows (csv_files successful_imports : List String)
    (p : String → Bool) (hsucc : successful_imports = csv_files.filter p) :
    (buildSummary csv_files successful_imports).length = successful_imports.length ∧
    (buildSummary csv_files successful_imports).map (fun r => r.headD "") =
      successful_imports.map splitextBase ∧
    (successful_imports = [] →
      update_summary_sheet csv_files successful_imports = none) ∧
    (successful_imports ≠ [] →
      update_summary_sheet csv_files successful_imports =
        some (buildSummary csv_files successful_imports)) := by
  have hfilter : csv_files.filter (fun f => decide (f ∈ successful_imports)) =
      successful_imports := by
    rw [hsucc]
    exact filter_mem_eq csv_files p
  have hlen : (buildSummary csv_files successful_imports).length =
      successful_imports.length := by
    rw [buildSummary_eq_go, buildSummaryGo_length, hfilter]
  have hheads : (buildSummary csv_files successful_imports).map (fun r => r.headD "") =
      successful_imports.map splitextBase := by
    rw [buildSummary_eq_go, buildSummaryGo_heads, hfilter]
  refine ⟨hlen, hheads, ?_, ?_⟩
  · intro hempty
    have hnil : buildSummary csv_files successful_imports = [] := by
      apply List.length_eq_zero.mp
      rw [hlen, hempty]
      rfl
    unfold update_summary_sheet
    simp [hnil]
  · intro hnonempty
    have hnil : buildSummary csv_files successful_imports ≠ [] := by
      intro h0
      apply hnonempty
      apply List.length_eq_zero.mp
      rw [← hlen, h0]
      rfl
    unfold update_summary_sheet
    simp [hnil]

/-- Claim C8 witness: three processed files of which two succeeded produce
exactly two summary rows, and the write is performed. -/
theorem claim8_witness :
    (buildSummary ["a.csv", "b.csv", "c.csv"] ["a.csv", "c.csv"]).length = 2 ∧
    update_summary_sheet ["a.csv", "b.csv", "c.csv"] ["a.csv", "c.csv"] =
      some (buildSummary ["a.csv", "b.csv", "c.csv"] ["a.csv", "c.csv"]) := by
  have h := claim8_summary_rows ["a.csv", "b.csv", "c.csv"] ["a.csv", "c.csv"]
    (fun f => !(f == "b.csv")) rfl
  exact ⟨h.1, h.2.2.2 (by decide)⟩

/-- Claim C9: if document creation fails, the run terminates at once — no
file enters per-file processing (so none is validated, loaded or
uploaded) and no summary is produced. -/
theorem claim9_create_failure_fatal (csv_files : List String) (maxRetries : Nat)
    (fileEnvs : String → Nat → AttemptEnv) (hne : csv_files ≠ []) :
    mainRun csv_files none maxRetries fileEnvs = (.createFailed, []) := by
  unfold mainRun
  rw [if_neg (by simpa [List.isEmpty_iff] using hne)]

/-- Claim C9 witness: one file, failed creation — the run aborts with no
processed files. -/
theorem claim9_witness :
    mainRun ["a.csv"] none MAX_RETRIES
      (fun _ _ => ⟨1, 50, .ok placeholderDf, .ok (), .ok ()⟩) =
      (.createFailed, []) :=
  claim9_create_failure_fatal ["a.csv"] MAX_RETRIES _ (by simp)
